import Mathlib

/-!
Verification of the `node-nats-streaming-buffered-client` TypeScript sources.

The development shallow-embeds the `NatsBufferedClient` class from
`src/node-nats-streaming-buffered-client.ts`.  The file holds two revisions of
the class: the current one, whose delivery loop is `tick` (a ring buffer of
pending messages, a `ticking` flag, an `initialConnected` flag and a
`waitForInitialConnection` guard on `publish`), and an older revision whose
delivery loop is `run` and which keeps a `publishFailCount` counter that
escalates to `reconnect()` once the counter passes 10.

The external NATS streaming session (`stan`) is out of scope of the
repository; it is embedded through the events its contract provides
(`connect`, `error`, publish acknowledgment callbacks).  The `CBuffer` ring
buffer is an external npm dependency whose source is likewise not in the
repository; it is modelled from the specification's ring-buffer contract.

The client is single-threaded JavaScript: each external stimulus (a user call
or a session callback) runs one synchronous handler to completion.  The
machine below mirrors that: `step` executes one handler, `execList` executes a
sequence of stimuli, and the emitted `ClientEvent` list records the externally
visible actions (session publishes, deliveries, overflow drops, failures).
-/

namespace NatsBuffered

/-- A buffered message, `IBufferItem` in the source: `{ subject, data }`.
The payload is opaque to the client; it is embedded as a `String`. -/
structure IBufferItem where
  subject : String
  data : String
deriving Repr, DecidableEq

/-- Modelled from the spec: the `CBuffer` ring buffer is an external npm
dependency whose source is not part of this repository.  Spec section 4.1 gives
its contract: a fixed-capacity FIFO holding `items` (head = oldest), with
`push`, `popFront` (`shift`), `pushFront` (`unshift`), `length`. -/
structure RingBuffer (α : Type) where
  capacity : Nat
  items : List α
deriving Repr, DecidableEq

/-- Modelled from the spec: `push(item)` inserts at the tail.  If
`length == capacity` the head (oldest) item is evicted first and handed to the
overflow hook before being discarded.  The second component is the evicted
item given to the hook, if any. -/
def RingBuffer.push {α : Type} (b : RingBuffer α) (x : α) : RingBuffer α × Option α :=
  if b.items.length = b.capacity then
    ({ b with items := b.items.tail ++ [x] }, b.items.head?)
  else
    ({ b with items := b.items ++ [x] }, none)

/-- Modelled from the spec: `popFront` / CBuffer `shift` removes and returns
the head item, or signals empty. -/
def RingBuffer.shift {α : Type} (b : RingBuffer α) : RingBuffer α × Option α :=
  match b.items with
  | [] => (b, none)
  | x :: rest => ({ b with items := rest }, some x)

/-- Modelled from the spec: `pushFront` / CBuffer `unshift` re-inserts an item
at the head.  If the buffer is at capacity it evicts from the opposite end
(the newest item), reporting it through the same overflow hook. -/
def RingBuffer.unshift {α : Type} (b : RingBuffer α) (x : α) : RingBuffer α × Option α :=
  if b.items.length = b.capacity then
    ({ b with items := x :: b.items.dropLast }, b.items.getLast?)
  else
    ({ b with items := x :: b.items }, none)

/-- CBuffer `length`: the number of items currently held. -/
def RingBuffer.length {α : Type} (b : RingBuffer α) : Nat := b.items.length

/-- CBuffer `first`: the head item without removing it. -/
def RingBuffer.first {α : Type} (b : RingBuffer α) : Option α := b.items.head?

/-! ### The `run` delivery-loop revision (lines 617-668 of the source file)

The older revision of the class keeps `publishFailCount`, the count of
consecutive publish failures since the last success, and its publish callback
escalates to `reconnect()` once the counter passes 10; below that it schedules
a delayed retry of the same item after `100 * publishFailCount` milliseconds.
The item itself is only peeked (`first()`), never removed before success, so a
failed item stays at the front of the buffer. -/

/-- State of the `run`-revision client relevant to its publish callback. -/
structure RunState where
  buffer : RingBuffer IBufferItem
  publishFailCount : Nat
deriving Repr, DecidableEq

/-- The action the `run` publish callback takes after an outcome. -/
inductive RunAction
  | reconnect
  | scheduleRetry (delayMs : Nat)
  | nextItem
deriving Repr, DecidableEq

/-- The escalation point of the `run` revision: the code escalates when
`publishFailCount > 10`, i.e. once the counter reaches 11. -/
def retryThreshold : Nat := 11

/-- The error branch of the `run` publish callback: increment
`publishFailCount`; if it exceeds 10, call `reconnect()`; otherwise schedule
`run` again after `100 * publishFailCount` ms.  The buffer is untouched (the
failed item was only peeked and stays at the front). -/
def runOnPublishError (s : RunState) : RunState × RunAction :=
  let s := { s with publishFailCount := s.publishFailCount + 1 }
  if s.publishFailCount > 10 then (s, .reconnect)
  else (s, .scheduleRetry (100 * s.publishFailCount))

/-- The success branch of the `run` publish callback: reset the counter,
remove the delivered item, continue with the next one. -/
def runOnPublishSuccess (s : RunState) : RunState × RunAction :=
  let s := { s with publishFailCount := 0 }
  ({ s with buffer := (s.buffer.shift).1 }, .nextItem)

/-! ### Connect options (current revision, `connect`, lines 168-185)

`connect` builds `this.clientOptions = Object.assign(defaultOptions, options)`
with `defaultOptions = { maxReconnectAttempts: -1, reconnect: true,
waitOnFirstConnect: true }`.  `StanOptions` is embedded with the three keys the
client defaults plus one representative further caller key (`url`); a missing
key is `none` (JavaScript `undefined`). -/

structure StanOptions where
  maxReconnectAttempts : Option Int
  reconnect : Option Bool
  waitOnFirstConnect : Option Bool
  url : Option String
deriving Repr, DecidableEq

/-- The defaults `connect` starts from. -/
def defaultStanOptions : StanOptions :=
  { maxReconnectAttempts := some (-1)
    reconnect := some true
    waitOnFirstConnect := some true
    url := none }

/-- JavaScript `Object.assign(target, source)` over the embedded keys: every
key present on the source overwrites the target's. -/
def objectAssign (target source : StanOptions) : StanOptions :=
  { maxReconnectAttempts :=
      (source.maxReconnectAttempts).orElse fun _ => target.maxReconnectAttempts
    reconnect := (source.reconnect).orElse fun _ => target.reconnect
    waitOnFirstConnect :=
      (source.waitOnFirstConnect).orElse fun _ => target.waitOnFirstConnect
    url := (source.url).orElse fun _ => target.url }

/-- The options `connect` stores and passes to `nats.connect`:
`Object.assign(defaultOptions, options)`; with `options` omitted this is just
the defaults. -/
def connectClientOptions (options : Option StanOptions) : StanOptions :=
  match options with
  | none => defaultStanOptions
  | some o => objectAssign defaultStanOptions o

/-! ### The current client (lines 21-400 of the source file) -/

/-- Status of the external streaming session held in `this.stan`: created by
`nats.connect` and still connecting, or connected (its `connect` event fired). -/
inductive SessionStatus
  | connecting
  | connected
deriving Repr, DecidableEq

/-- A buffered message tagged with a ghost sequence number recording the order
of `publish` calls.  The tag does not exist in the source; it only lets the
theorems speak about which message was published before which. -/
structure MsgItem where
  subject : String
  data : String
  seq : Nat
deriving Repr, DecidableEq

/-- The fields of `NatsBufferedClient` (current revision).  `pending` is the
list of publish callbacks handed to `stan.publish` and not yet invoked, oldest
first; it is how the embedding represents in-flight acknowledgment callbacks.
`nextSeq` is the ghost counter for `MsgItem.seq`. -/
structure ClientState where
  stan : Option SessionStatus
  buffer : RingBuffer MsgItem
  ticking : Bool
  initialConnected : Bool
  waitForInitialConnection : Bool
  pending : List MsgItem
  clusterId : Option String
  clientId : Option String
  clientOptions : Option StanOptions
  nextSeq : Nat
deriving Repr, DecidableEq

/-- The state the constructor builds: empty ring buffer of the requested
capacity, no session, not ticking, never connected. -/
def initClient (bufferSize : Nat) (waitForInitialConnection : Bool) : ClientState :=
  { stan := none
    buffer := { capacity := bufferSize, items := [] }
    ticking := false
    initialConnected := false
    waitForInitialConnection := waitForInitialConnection
    pending := []
    clusterId := none
    clientId := none
    clientOptions := none
    nextSeq := 0 }

/-- Externally visible actions of one handler. -/
inductive ClientEvent
  | overflowDrop (m : MsgItem)
  | sessionPublish (m : MsgItem)
  | delivered (m : MsgItem)
  | publishFailed (m : MsgItem)
  | publishError
  | sessionClose
deriving Repr, DecidableEq

/-- `tick()` (lines 353-399): set `ticking`; if a session is held, `shift` the
head item and hand it to `stan.publish` (a `sessionPublish` event, with the
callback recorded in `pending`); on an empty buffer or no session, clear
`ticking` and go to sleep. -/
def tick (s : ClientState) : ClientState × List ClientEvent :=
  let s1 := { s with ticking := true }
  match s1.stan with
  | some _ =>
    match s1.buffer.shift with
    | (b', some pub) =>
      ({ s1 with buffer := b', pending := s1.pending ++ [pub] }, [.sessionPublish pub])
    | (_, none) => ({ s1 with ticking := false }, [])
  | none => ({ s1 with ticking := false }, [])

/-- The error `publish` throws before the initial connection. -/
inductive PublishError
  | invalidState
deriving Repr, DecidableEq

/-- The body of `publish(subject, data)` past its guard (lines 316-328): push
onto the buffer (the overflow hook firing on eviction), wake `tick` when a
session is held and `ticking` is false, and return `this.buffer.length` as it
stands at the end of the call. -/
def publishCore (s : ClientState) (subject data : String) :
    ClientState × List ClientEvent × Nat :=
  let item : MsgItem := { subject := subject, data := data, seq := s.nextSeq }
  let p := s.buffer.push item
  let s1 := { s with buffer := p.1, nextSeq := s.nextSeq + 1 }
  let r := if s1.stan.isSome && !s1.ticking then tick s1 else (s1, [])
  (r.1, (p.2.toList.map ClientEvent.overflowDrop) ++ r.2, r.1.buffer.length)

/-- `publish(subject, data)` (lines 307-329): throw if
`waitForInitialConnection && !initialConnected`, otherwise run the body. -/
def publishM (s : ClientState) (subject data : String) :
    Except PublishError (ClientState × List ClientEvent × Nat) :=
  if s.waitForInitialConnection && !s.initialConnected then
    .error .invalidState
  else
    .ok (publishCore s subject data)

/-- How the promise returned by `disconnect()` settles within the synchronous
part of the call. -/
inductive DisconnectOutcome
  | resolvedImmediately
  | closeRequested
deriving Repr, DecidableEq

/-- `disconnect()` (lines 253-278): with a session held, request `close()` on
it and clear `this.stan` synchronously (the promise settles later from the
session's events); with no session, resolve immediately with no side effect. -/
def disconnectM (s : ClientState) : ClientState × List ClientEvent × DisconnectOutcome :=
  match s.stan with
  | some _ => ({ s with stan := none }, [.sessionClose], .closeRequested)
  | none => (s, [], .resolvedImmediately)

/-- External stimuli driving the client: user calls and session callbacks.
`ackAt k ok` invokes the `k`-th pending publish callback with outcome `ok`;
callbacks of distinct `stan.publish` calls may complete in any order. -/
inductive ClientInput
  | connectCall (clusterId clientId : String) (options : Option StanOptions)
  | sessionConnect
  | disconnectCall
  | publishCall (subject data : String)
  | ackAt (k : Nat) (ok : Bool)
deriving Repr, DecidableEq

/-- The synchronous part of `connect()` (lines 163-245): store the parameters
and the merged options, create the session with `nats.connect` (still
connecting).  The previous session, if any, is simply overwritten. -/
def stepConnect (s : ClientState) (cid clid : String) (opts : Option StanOptions) :
    ClientState × List ClientEvent :=
  ({ s with stan := some .connecting
            clusterId := some cid
            clientId := some clid
            clientOptions := some (connectClientOptions opts) }, [])

/-- The session's `connect` event handler (lines 189-202): mark
`initialConnected`, start buffer processing with `tick()` (called
unconditionally, whatever `ticking` says), resolve the connect promise. -/
def stepSessionConnect (s : ClientState) : ClientState × List ClientEvent :=
  match s.stan with
  | none => (s, [])
  | some _ => tick { s with stan := some .connected, initialConnected := true }

/-- One `publish()` call as a machine step: a throw leaves the state untouched
and surfaces `publishError`. -/
def stepPublish (s : ClientState) (subject data : String) : ClientState × List ClientEvent :=
  match publishM s subject data with
  | .error _ => (s, [.publishError])
  | .ok r => (r.1, r.2.1)

/-- The publish acknowledgment callback (lines 364-386): on success the item
is done; on failure `unshift` it back onto the front of the buffer (the
overflow hook fires if that evicts); either way call `tick()` again. -/
def stepAck (s : ClientState) (k : Nat) (ok : Bool) : ClientState × List ClientEvent :=
  match s.pending[k]? with
  | none => (s, [])
  | some m =>
    let s0 := { s with pending := s.pending.eraseIdx k }
    if ok then
      let r := tick s0
      (r.1, .delivered m :: r.2)
    else
      let p := s0.buffer.unshift m
      let r := tick { s0 with buffer := p.1 }
      (r.1, .publishFailed m :: (p.2.toList.map ClientEvent.overflowDrop ++ r.2))

/-- One handler execution. -/
def step (s : ClientState) : ClientInput → ClientState × List ClientEvent
  | .connectCall cid clid opts => stepConnect s cid clid opts
  | .sessionConnect => stepSessionConnect s
  | .disconnectCall => ((disconnectM s).1, (disconnectM s).2.1)
  | .publishCall subject data => stepPublish s subject data
  | .ackAt k ok => stepAck s k ok

/-- Run a sequence of stimuli, concatenating the emitted events. -/
def execList (s : ClientState) : List ClientInput → ClientState × List ClientEvent
  | [] => (s, [])
  | i :: rest =>
    let r := step s i
    let r' := execList r.1 rest
    (r'.1, r.2 ++ r'.2)

/-- Every state a run passes through, the initial one included. -/
def statesOf (s : ClientState) : List ClientInput → List ClientState
  | [] => [s]
  | i :: rest => s :: statesOf (step s i).1 rest

/-- A run in which publish attempts never overlap: at every point at most one
publish callback is pending. -/
def boundedFlight (s : ClientState) (l : List ClientInput) : Prop :=
  ∀ t ∈ statesOf s l, t.pending.length ≤ 1

/-- The ghost sequence numbers of the messages delivered in an event list, in
order of delivery. -/
def delivSeqs (evs : List ClientEvent) : List Nat :=
  evs.filterMap fun e => match e with | .delivered m => some m.seq | _ => none

/-- The items handed to the overflow hook in an event list. -/
def overflowPayloads (evs : List ClientEvent) : List MsgItem :=
  evs.filterMap fun e => match e with | .overflowDrop m => some m | _ => none

/-- All not-yet-delivered messages the client is responsible for, in delivery
order: in-flight callbacks first, then the buffer. -/
def liveQueue (s : ClientState) : List MsgItem := s.pending ++ s.buffer.items

/-- Recognizes the stimulus corresponding to a user `connect()` call. -/
def isConnectCall : ClientInput → Bool
  | .connectCall _ _ _ => true
  | _ => false

/-- Ordering invariant: the not-yet-delivered messages, in-flight ones first,
carry strictly increasing publish sequence numbers, all below the ghost
counter. -/
def Inv (s : ClientState) : Prop :=
  List.Pairwise (fun a b => a.seq < b.seq) (liveQueue s) ∧
  ∀ m ∈ liveQueue s, m.seq < s.nextSeq

/-- Lower bound `k` on every sequence number the client can still deliver. -/
def SeqLB (k : Nat) (s : ClientState) : Prop :=
  (∀ m ∈ liveQueue s, k ≤ m.seq) ∧ k ≤ s.nextSeq

/-! ### The promise of one `connect()` call (lines 163-245)

`connect` returns a promise; its `connect` handler sets `initialConnected`
then resolves, and its `error` handler rejects only `if (!initialConnected)`.
`initialConnected` is the instance-wide flag: it may already be true when the
call starts, set by an earlier successful connect on the same instance.  The
fold below runs this pair of handlers over the session's event sequence,
with promise settle-once semantics. -/

/-- Settlement state of a JavaScript promise. -/
inductive PromiseState
  | pending
  | resolved
  | rejected
deriving Repr, DecidableEq

/-- Session events a `stan` instance can emit to its listeners. -/
inductive SessEvt
  | connect
  | error
  | reconnecting
  | reconnect
  | disconnect
  | close
  | permissionError
deriving Repr, DecidableEq

/-- The promise of one `connect()` call together with the instance's
`initialConnected` flag. -/
structure ConnectPromiseState where
  promise : PromiseState
  initialConnected : Bool
deriving Repr, DecidableEq

/-- The `connect` and `error` handlers registered by `connect()`: `connect`
sets `initialConnected` and resolves; `error` rejects only while
`initialConnected` is false.  Settling is one-shot. -/
def connectHandle (st : ConnectPromiseState) : SessEvt → ConnectPromiseState
  | .connect =>
    let st := { st with initialConnected := true }
    if st.promise = .pending then { st with promise := .resolved } else st
  | .error =>
    if !st.initialConnected ∧ st.promise = .pending then
      { st with promise := .rejected }
    else st
  | _ => st

/-- Run one `connect()` call's handlers over the session's event sequence,
starting from a pending promise and the instance's current
`initialConnected`. -/
def connectRun (ic : Bool) (evts : List SessEvt) : ConnectPromiseState :=
  evts.foldl connectHandle { promise := .pending, initialConnected := ic }

/-- True when an `error` event occurs before any `connect` event. -/
def errorBeforeConnect : List SessEvt → Bool
  | [] => false
  | .connect :: _ => false
  | .error :: _ => true
  | _ :: rest => errorBeforeConnect rest

/-- True when the event sequence holds a `connect` event. -/
def hasConnectEvt : List SessEvt → Bool
  | [] => false
  | .connect :: _ => true
  | _ :: rest => hasConnectEvt rest

/-! ### Helper lemmas -/

theorem orElse_some_getD {α : Type} (a : Option α) (d : α) :
    (a.orElse fun _ => some d) = some (a.getD d) := by
  cases a <;> rfl

theorem RingBuffer.push_items {α : Type} (b : RingBuffer α) (x : α) :
    ((b.push x).1).items
      = (if b.items.length = b.capacity then b.items.tail else b.items) ++ [x] := by
  unfold RingBuffer.push
  by_cases h : b.items.length = b.capacity <;> simp [h]

theorem RingBuffer.push_evicted {α : Type} (b : RingBuffer α) (x : α) :
    (b.push x).2 = if b.items.length = b.capacity then b.items.head? else none := by
  unfold RingBuffer.push
  by_cases h : b.items.length = b.capacity <;> simp [h]

theorem RingBuffer.push_capacity {α : Type} (b : RingBuffer α) (x : α) :
    ((b.push x).1).capacity = b.capacity := by
  unfold RingBuffer.push
  by_cases h : b.items.length = b.capacity <;> simp [h]

theorem RingBuffer.unshift_items {α : Type} (b : RingBuffer α) (x : α) :
    ((b.unshift x).1).items
      = x :: (if b.items.length = b.capacity then b.items.dropLast else b.items) := by
  unfold RingBuffer.unshift
  by_cases h : b.items.length = b.capacity <;> simp [h]

theorem RingBuffer.unshift_capacity {α : Type} (b : RingBuffer α) (x : α) :
    ((b.unshift x).1).capacity = b.capacity := by
  unfold RingBuffer.unshift
  by_cases h : b.items.length = b.capacity <;> simp [h]

theorem RingBuffer.shift_capacity {α : Type} (b : RingBuffer α) :
    ((b.shift).1).capacity = b.capacity := by
  unfold RingBuffer.shift
  cases b.items <;> simp

theorem RingBuffer.push_length_le {α : Type} (b : RingBuffer α) (x : α)
    (h0 : 0 < b.capacity) (h : b.items.length ≤ b.capacity) :
    ((b.push x).1).items.length ≤ b.capacity := by
  rw [RingBuffer.push_items]
  by_cases hc : b.items.length = b.capacity <;> simp [hc, List.length_tail] <;> omega

theorem RingBuffer.unshift_length_le {α : Type} (b : RingBuffer α) (x : α)
    (h0 : 0 < b.capacity) (h : b.items.length ≤ b.capacity) :
    ((b.unshift x).1).items.length ≤ b.capacity := by
  rw [RingBuffer.unshift_items]
  by_cases hc : b.items.length = b.capacity <;> simp [hc, List.length_dropLast] <;> omega

theorem tick_liveQueue (s : ClientState) : liveQueue (tick s).1 = liveQueue s := by
  unfold tick
  cases hs : s.stan with
  | none => simp [liveQueue]
  | some st =>
    cases hb : s.buffer.items with
    | nil => simp [RingBuffer.shift, hb, liveQueue]
    | cons x rest => simp [RingBuffer.shift, hb, liveQueue]

theorem tick_frame (s : ClientState) :
    (tick s).1.stan = s.stan ∧
    (tick s).1.initialConnected = s.initialConnected ∧
    (tick s).1.waitForInitialConnection = s.waitForInitialConnection ∧
    (tick s).1.nextSeq = s.nextSeq ∧
    (tick s).1.buffer.capacity = s.buffer.capacity ∧
    (tick s).1.clusterId = s.clusterId ∧
    (tick s).1.clientId = s.clientId ∧
    (tick s).1.clientOptions = s.clientOptions := by
  unfold tick
  cases hs : s.stan with
  | none => simp
  | some st =>
    cases hb : s.buffer.items with
    | nil => simp [RingBuffer.shift, hb]
    | cons x rest => simp [RingBuffer.shift, hb]

theorem tick_stan_none (s : ClientState) (h : s.stan = none) :
    tick s = ({ s with ticking := false }, []) := by
  unfold tick
  rw [h]

theorem tick_events (s : ClientState) :
    (tick s).2 = [] ∨ ∃ m, (tick s).2 = [ClientEvent.sessionPublish m] := by
  unfold tick
  cases hs : s.stan with
  | none => exact Or.inl rfl
  | some st =>
    cases hb : s.buffer.items with
    | nil => simp [RingBuffer.shift, hb]
    | cons x rest => simp [RingBuffer.shift, hb]

theorem tick_buffer_shrinks (s : ClientState) :
    (tick s).1.buffer.items.length ≤ s.buffer.items.length ∧
    (tick s).1.buffer.items.Sublist s.buffer.items := by
  unfold tick
  cases hs : s.stan with
  | none => simp
  | some st =>
    cases hb : s.buffer.items with
    | nil => simp [RingBuffer.shift, hb]
    | cons x rest => simp [RingBuffer.shift, hb]

theorem tick_pending (s : ClientState) :
    (tick s).1.pending = s.pending ∨
    ∃ m, (tick s).1.pending = s.pending ++ [m] ∧ s.buffer.items.head? = some m := by
  unfold tick
  cases hs : s.stan with
  | none => simp
  | some st =>
    cases hb : s.buffer.items with
    | nil => simp [RingBuffer.shift, hb]
    | cons x rest => simp [RingBuffer.shift, hb]

theorem publishCore_liveQueue (s : ClientState) (subject data : String) :
    liveQueue (publishCore s subject data).1
      = s.pending
        ++ ((s.buffer.push { subject := subject, data := data, seq := s.nextSeq }).1).items := by
  unfold publishCore
  by_cases hwake :
      ((Option.isSome s.stan) && !s.ticking) = true
  · simp only [hwake, if_pos]
    rw [tick_liveQueue]
    rfl
  · simp only [hwake, if_neg, Bool.false_eq_true, not_false_eq_true]
    rfl

theorem publishCore_getLast (s : ClientState) (subject data : String) :
    (liveQueue (publishCore s subject data).1).getLast?
      = some { subject := subject, data := data, seq := s.nextSeq } := by
  rw [publishCore_liveQueue, RingBuffer.push_items, ← List.append_assoc]
  exact List.getLast?_concat _

theorem publishCore_length_eq (s : ClientState) (subject data : String) :
    (publishCore s subject data).2.2 = (publishCore s subject data).1.buffer.length := rfl

theorem publishCore_capacity (s : ClientState) (subject data : String) :
    (publishCore s subject data).1.buffer.capacity = s.buffer.capacity := by
  unfold publishCore
  by_cases hwake : ((Option.isSome s.stan) && !s.ticking) = true
  · simp only [hwake, if_pos]
    rw [(tick_frame _).2.2.2.2.1]
    exact s.buffer.push_capacity _
  · simp only [hwake, if_neg, Bool.false_eq_true, not_false_eq_true]
    exact s.buffer.push_capacity _

theorem publishCore_length_le (s : ClientState) (subject data : String)
    (h0 : 0 < s.buffer.capacity) (h : s.buffer.items.length ≤ s.buffer.capacity) :
    (publishCore s subject data).1.buffer.items.length ≤ s.buffer.capacity := by
  unfold publishCore
  by_cases hwake : ((Option.isSome s.stan) && !s.ticking) = true
  · simp only [hwake, if_pos]
    refine le_trans (tick_buffer_shrinks _).1 ?_
    exact s.buffer.push_length_le _ h0 h
  · simp only [hwake, if_neg, Bool.false_eq_true, not_false_eq_true]
    exact s.buffer.push_length_le _ h0 h

theorem publishCore_events (s : ClientState) (subject data : String) :
    (publishCore s subject data).2.1
      = (((s.buffer.push { subject := subject, data := data, seq := s.nextSeq }).2).toList.map
          ClientEvent.overflowDrop)
        ++ (if ((Option.isSome s.stan) && !s.ticking) = true then
              (tick { s with
                buffer := (s.buffer.push
                  { subject := subject, data := data, seq := s.nextSeq }).1
                nextSeq := s.nextSeq + 1 }).2
            else []) := by
  unfold publishCore
  by_cases hwake : ((Option.isSome s.stan) && !s.ticking) = true
  · simp only [hwake, if_pos]
  · simp only [hwake, if_neg, Bool.false_eq_true, not_false_eq_true]

theorem stepPublish_guard (s : ClientState) (subject data : String)
    (hg : (s.waitForInitialConnection && !s.initialConnected) = true) :
    stepPublish s subject data = (s, [ClientEvent.publishError]) := by
  unfold stepPublish publishM
  simp [hg]

theorem stepPublish_core (s : ClientState) (subject data : String)
    (hg : (s.waitForInitialConnection && !s.initialConnected) = false) :
    stepPublish s subject data
      = ((publishCore s subject data).1, (publishCore s subject data).2.1) := by
  unfold stepPublish publishM
  simp [hg]

theorem stepAck_none_eq (s : ClientState) (k : Nat) (ok : Bool)
    (h : s.pending[k]? = none) : stepAck s k ok = (s, []) := by
  unfold stepAck
  rw [h]

theorem stepAck_ok_eq (s : ClientState) (k : Nat) (m : MsgItem)
    (h : s.pending[k]? = some m) :
    stepAck s k true
      = ((tick { s with pending := s.pending.eraseIdx k }).1,
         ClientEvent.delivered m :: (tick { s with pending := s.pending.eraseIdx k }).2) := by
  unfold stepAck
  rw [h]
  rfl

theorem stepAck_fail_eq (s : ClientState) (k : Nat) (m : MsgItem)
    (h : s.pending[k]? = some m) :
    stepAck s k false
      = ((tick { s with pending := s.pending.eraseIdx k
                        buffer := (s.buffer.unshift m).1 }).1,
         ClientEvent.publishFailed m ::
           (((s.buffer.unshift m).2).toList.map ClientEvent.overflowDrop
             ++ (tick { s with pending := s.pending.eraseIdx k
                               buffer := (s.buffer.unshift m).1 }).2)) := by
  unfold stepAck
  rw [h]
  rfl

theorem stepSessionConnect_none (s : ClientState) (h : s.stan = none) :
    stepSessionConnect s = (s, []) := by
  unfold stepSessionConnect
  rw [h]

theorem stepSessionConnect_some (s : ClientState) (st : SessionStatus)
    (h : s.stan = some st) :
    stepSessionConnect s
      = tick { s with stan := some SessionStatus.connected, initialConnected := true } := by
  unfold stepSessionConnect
  rw [h]

theorem disconnectM_none (s : ClientState) (h : s.stan = none) :
    disconnectM s = (s, [], DisconnectOutcome.resolvedImmediately) := by
  simp [disconnectM, h]

theorem disconnectM_some (s : ClientState) (st : SessionStatus) (h : s.stan = some st) :
    disconnectM s
      = ({ s with stan := none }, [ClientEvent.sessionClose],
         DisconnectOutcome.closeRequested) := by
  simp [disconnectM, h]

theorem publishCore_stan_none (s : ClientState) (subject data : String)
    (h : s.stan = none) :
    publishCore s subject data
      = ({ s with
            buffer := (s.buffer.push { subject := subject, data := data, seq := s.nextSeq }).1
            nextSeq := s.nextSeq + 1 },
         ((s.buffer.push { subject := subject, data := data, seq := s.nextSeq }).2).toList.map
           ClientEvent.overflowDrop,
         ((s.buffer.push { subject := subject, data := data, seq := s.nextSeq }).1).items.length)
      := by
  unfold publishCore
  simp [h, RingBuffer.length]

theorem publishCore_frame (s : ClientState) (subject data : String) :
    (publishCore s subject data).1.stan = s.stan ∧
    (publishCore s subject data).1.initialConnected = s.initialConnected ∧
    (publishCore s subject data).1.waitForInitialConnection = s.waitForInitialConnection ∧
    (publishCore s subject data).1.nextSeq = s.nextSeq + 1 := by
  unfold publishCore
  by_cases hwake : ((Option.isSome s.stan) && !s.ticking) = true
  · simp only [hwake, if_pos]
    exact ⟨(tick_frame _).1, (tick_frame _).2.1, (tick_frame _).2.2.1, (tick_frame _).2.2.2.1⟩
  · simp only [hwake, if_neg, Bool.false_eq_true, not_false_eq_true]
    simp

theorem tick_events_shape (s : ClientState) (e : ClientEvent) (h : e ∈ (tick s).2) :
    ∃ m, e = ClientEvent.sessionPublish m := by
  rcases tick_events s with h' | ⟨m, h'⟩ <;> rw [h'] at h
  · cases h
  · simp only [List.mem_singleton] at h
    exact ⟨m, h⟩

theorem delivSeqs_tick (s : ClientState) : delivSeqs (tick s).2 = [] := by
  rcases tick_events s with h | ⟨m, h⟩ <;> simp [delivSeqs, h]

theorem delivSeqs_overflows (l : List MsgItem) :
    delivSeqs (l.map ClientEvent.overflowDrop) = [] := by
  induction l with
  | nil => rfl
  | cons x xs ih =>
    rw [List.map_cons]
    rw [show delivSeqs (ClientEvent.overflowDrop x :: List.map ClientEvent.overflowDrop xs)
      = delivSeqs (List.map ClientEvent.overflowDrop xs) from rfl]
    exact ih

theorem overflowPayloads_map (l : List MsgItem) :
    overflowPayloads (l.map ClientEvent.overflowDrop) = l := by
  induction l with
  | nil => rfl
  | cons x xs ih => simpa [overflowPayloads] using ih

theorem overflowPayloads_tick (s : ClientState) : overflowPayloads (tick s).2 = [] := by
  rcases tick_events s with h | ⟨m, h⟩ <;> simp [overflowPayloads, h]

theorem step_capacity (s : ClientState) (i : ClientInput) :
    (step s i).1.buffer.capacity = s.buffer.capacity := by
  cases i with
  | connectCall cid clid opts => rfl
  | sessionConnect =>
    show (stepSessionConnect s).1.buffer.capacity = _
    cases hs : s.stan with
    | none => rw [stepSessionConnect_none s hs]
    | some st =>
      rw [stepSessionConnect_some s st hs]
      exact (tick_frame _).2.2.2.2.1
  | disconnectCall =>
    show ((disconnectM s).1).buffer.capacity = _
    cases hs : s.stan with
    | none => rw [disconnectM_none s hs]
    | some st => rw [disconnectM_some s st hs]
  | publishCall subject data =>
    show (stepPublish s subject data).1.buffer.capacity = _
    cases hg : (s.waitForInitialConnection && !s.initialConnected) with
    | true => rw [stepPublish_guard s subject data hg]
    | false =>
      rw [stepPublish_core s subject data hg]
      exact publishCore_capacity s subject data
  | ackAt k ok =>
    show (stepAck s k ok).1.buffer.capacity = _
    cases hp : s.pending[k]? with
    | none => rw [stepAck_none_eq s k ok hp]
    | some m =>
      cases ok with
      | true =>
        rw [stepAck_ok_eq s k m hp]
        exact (tick_frame _).2.2.2.2.1
      | false =>
        rw [stepAck_fail_eq s k m hp]
        refine Eq.trans (tick_frame _).2.2.2.2.1 ?_
        exact s.buffer.unshift_capacity m

theorem step_buffer_le (s : ClientState) (i : ClientInput)
    (h0 : 0 < s.buffer.capacity) (h : s.buffer.items.length ≤ s.buffer.capacity) :
    (step s i).1.buffer.items.length ≤ s.buffer.capacity := by
  cases i with
  | connectCall cid clid opts => exact h
  | sessionConnect =>
    show (stepSessionConnect s).1.buffer.items.length ≤ _
    cases hs : s.stan with
    | none =>
      rw [stepSessionConnect_none s hs]
      exact h
    | some st =>
      rw [stepSessionConnect_some s st hs]
      exact le_trans (tick_buffer_shrinks _).1 h
  | disconnectCall =>
    show ((disconnectM s).1).buffer.items.length ≤ _
    cases hs : s.stan with
    | none =>
      rw [disconnectM_none s hs]
      exact h
    | some st =>
      rw [disconnectM_some s st hs]
      exact h
  | publishCall subject data =>
    show (stepPublish s subject data).1.buffer.items.length ≤ _
    cases hg : (s.waitForInitialConnection && !s.initialConnected) with
    | true =>
      rw [stepPublish_guard s subject data hg]
      exact h
    | false =>
      rw [stepPublish_core s subject data hg]
      exact publishCore_length_le s subject data h0 h
  | ackAt k ok =>
    show (stepAck s k ok).1.buffer.items.length ≤ _
    cases hp : s.pending[k]? with
    | none =>
      rw [stepAck_none_eq s k ok hp]
      exact h
    | some m =>
      cases ok with
      | true =>
        rw [stepAck_ok_eq s k m hp]
        exact le_trans (tick_buffer_shrinks _).1 h
      | false =>
        rw [stepAck_fail_eq s k m hp]
        refine le_trans (tick_buffer_shrinks _).1 ?_
        exact s.buffer.unshift_length_le m h0 h

theorem step_initialConnected (s : ClientState) (i : ClientInput)
    (h : s.initialConnected = true) : (step s i).1.initialConnected = true := by
  cases i with
  | connectCall cid clid opts => exact h
  | sessionConnect =>
    show (stepSessionConnect s).1.initialConnected = true
    cases hs : s.stan with
    | none =>
      rw [stepSessionConnect_none s hs]
      exact h
    | some st =>
      rw [stepSessionConnect_some s st hs]
      exact (tick_frame _).2.1
  | disconnectCall =>
    show ((disconnectM s).1).initialConnected = true
    cases hs : s.stan with
    | none =>
      rw [disconnectM_none s hs]
      exact h
    | some st =>
      rw [disconnectM_some s st hs]
      exact h
  | publishCall subject data =>
    show (stepPublish s subject data).1.initialConnected = true
    cases hg : (s.waitForInitialConnection && !s.initialConnected) with
    | true =>
      rw [stepPublish_guard s subject data hg]
      exact h
    | false =>
      rw [stepPublish_core s subject data hg]
      exact Eq.trans (publishCore_frame s subject data).2.1 h
  | ackAt k ok =>
    show (stepAck s k ok).1.initialConnected = true
    cases hp : s.pending[k]? with
    | none =>
      rw [stepAck_none_eq s k ok hp]
      exact h
    | some m =>
      cases ok with
      | true =>
        rw [stepAck_ok_eq s k m hp]
        exact Eq.trans (tick_frame _).2.1 h
      | false =>
        rw [stepAck_fail_eq s k m hp]
        exact Eq.trans (tick_frame _).2.1 h

theorem step_stan_stays_none (s : ClientState) (i : ClientInput)
    (hs : s.stan = none) (hi : isConnectCall i = false) :
    (step s i).1.stan = none := by
  cases i with
  | connectCall cid clid opts => simp [isConnectCall] at hi
  | sessionConnect =>
    show (stepSessionConnect s).1.stan = none
    rw [stepSessionConnect_none s hs]
    exact hs
  | disconnectCall =>
    show ((disconnectM s).1).stan = none
    rw [disconnectM_none s hs]
    exact hs
  | publishCall subject data =>
    show (stepPublish s subject data).1.stan = none
    cases hg : (s.waitForInitialConnection && !s.initialConnected) with
    | true =>
      rw [stepPublish_guard s subject data hg]
      exact hs
    | false =>
      rw [stepPublish_core s subject data hg]
      exact Eq.trans (publishCore_frame s subject data).1 hs
  | ackAt k ok =>
    show (stepAck s k ok).1.stan = none
    cases hp : s.pending[k]? with
    | none =>
      rw [stepAck_none_eq s k ok hp]
      exact hs
    | some m =>
      cases ok with
      | true =>
        rw [stepAck_ok_eq s k m hp]
        exact Eq.trans (tick_frame _).1 hs
      | false =>
        rw [stepAck_fail_eq s k m hp]
        exact Eq.trans (tick_frame _).1 hs

theorem step_no_sessionPublish_of_stan_none (s : ClientState) (i : ClientInput)
    (hs : s.stan = none) (m : MsgItem) :
    ClientEvent.sessionPublish m ∉ (step s i).2 := by
  cases i with
  | connectCall cid clid opts => simp [step, stepConnect]
  | sessionConnect =>
    show ClientEvent.sessionPublish m ∉ (stepSessionConnect s).2
    rw [stepSessionConnect_none s hs]
    simp
  | disconnectCall =>
    show ClientEvent.sessionPublish m ∉ ((disconnectM s).2.1)
    rw [disconnectM_none s hs]
    simp
  | publishCall subject data =>
    show ClientEvent.sessionPublish m ∉ (stepPublish s subject data).2
    cases hg : (s.waitForInitialConnection && !s.initialConnected) with
    | true =>
      rw [stepPublish_guard s subject data hg]
      simp
    | false =>
      rw [stepPublish_core s subject data hg]
      rw [show (publishCore s subject data).2.1 = ((publishCore s subject data).2.1) from rfl,
        publishCore_stan_none s subject data hs]
      intro hmem
      simp only [List.mem_map, Option.mem_toList] at hmem
      obtain ⟨x, _, hx⟩ := hmem
      cases hx
  | ackAt k ok =>
    show ClientEvent.sessionPublish m ∉ (stepAck s k ok).2
    cases hp : s.pending[k]? with
    | none =>
      rw [stepAck_none_eq s k ok hp]
      simp
    | some m' =>
      cases ok with
      | true =>
        rw [stepAck_ok_eq s k m' hp]
        rw [tick_stan_none { s with pending := s.pending.eraseIdx k } hs]
        simp
      | false =>
        rw [stepAck_fail_eq s k m' hp]
        rw [tick_stan_none
          { s with pending := s.pending.eraseIdx k, buffer := (s.buffer.unshift m').1 } hs]
        intro hmem
        simp only [List.cons_append, List.append_nil, List.mem_cons, List.mem_map,
          Option.mem_toList] at hmem
        rcases hmem with h1 | ⟨x, _, hx⟩
        · cases h1
        · cases hx

theorem step_delivered_mem (s : ClientState) (i : ClientInput) (m : MsgItem)
    (h : ClientEvent.delivered m ∈ (step s i).2) : m ∈ s.pending := by
  cases i with
  | connectCall cid clid opts => cases h
  | sessionConnect =>
    exfalso
    cases hs : s.stan with
    | none =>
      rw [show (step s ClientInput.sessionConnect) = stepSessionConnect s from rfl,
        stepSessionConnect_none s hs] at h
      cases h
    | some st =>
      rw [show (step s ClientInput.sessionConnect) = stepSessionConnect s from rfl,
        stepSessionConnect_some s st hs] at h
      obtain ⟨m', hm'⟩ := tick_events_shape _ _ h
      cases hm'
  | disconnectCall =>
    exfalso
    cases hs : s.stan with
    | none =>
      rw [show (step s ClientInput.disconnectCall).2 = (disconnectM s).2.1 from rfl,
        disconnectM_none s hs] at h
      cases h
    | some st =>
      rw [show (step s ClientInput.disconnectCall).2 = (disconnectM s).2.1 from rfl,
        disconnectM_some s st hs] at h
      simp at h
  | publishCall subject data =>
    exfalso
    cases hg : (s.waitForInitialConnection && !s.initialConnected) with
    | true =>
      rw [show (step s (ClientInput.publishCall subject data)) = stepPublish s subject data
        from rfl, stepPublish_guard s subject data hg] at h
      simp at h
    | false =>
      rw [show (step s (ClientInput.publishCall subject data)) = stepPublish s subject data
        from rfl, stepPublish_core s subject data hg, publishCore_events] at h
      rcases List.mem_append.mp h with h1 | h1
      · simp only [List.mem_map, Option.mem_toList] at h1
        obtain ⟨x, _, hx⟩ := h1
        cases hx
      · by_cases hwake : ((Option.isSome s.stan) && !s.ticking) = true
        · rw [if_pos hwake] at h1
          obtain ⟨m', hm'⟩ := tick_events_shape _ _ h1
          cases hm'
        · rw [if_neg hwake] at h1
          cases h1
  | ackAt k ok =>
    cases hp : s.pending[k]? with
    | none =>
      rw [show (step s (ClientInput.ackAt k ok)) = stepAck s k ok from rfl,
        stepAck_none_eq s k ok hp] at h
      cases h
    | some m' =>
      cases ok with
      | true =>
        rw [show (step s (ClientInput.ackAt k true)) = stepAck s k true from rfl,
          stepAck_ok_eq s k m' hp] at h
        rcases List.mem_cons.mp h with h1 | h1
        · cases h1
          exact List.getElem?_mem hp
        · obtain ⟨m'', hm''⟩ := tick_events_shape _ _ h1
          cases hm''
      | false =>
        exfalso
        rw [show (step s (ClientInput.ackAt k false)) = stepAck s k false from rfl,
          stepAck_fail_eq s k m' hp] at h
        rcases List.mem_cons.mp h with h1 | h1
        · cases h1
        · rcases List.mem_append.mp h1 with h2 | h2
          · simp only [List.mem_map, Option.mem_toList] at h2
            obtain ⟨x, _, hx⟩ := h2
            cases hx
          · obtain ⟨m'', hm''⟩ := tick_events_shape _ _ h2
            cases hm''

theorem step_publishError_guard (s : ClientState) (i : ClientInput)
    (h : ClientEvent.publishError ∈ (step s i).2) :
    s.waitForInitialConnection = true ∧ s.initialConnected = false := by
  cases i with
  | connectCall cid clid opts => cases h
  | sessionConnect =>
    exfalso
    cases hs : s.stan with
    | none =>
      rw [show (step s ClientInput.sessionConnect) = stepSessionConnect s from rfl,
        stepSessionConnect_none s hs] at h
      cases h
    | some st =>
      rw [show (step s ClientInput.sessionConnect) = stepSessionConnect s from rfl,
        stepSessionConnect_some s st hs] at h
      obtain ⟨m', hm'⟩ := tick_events_shape _ _ h
      cases hm'
  | disconnectCall =>
    exfalso
    cases hs : s.stan with
    | none =>
      rw [show (step s ClientInput.disconnectCall).2 = (disconnectM s).2.1 from rfl,
        disconnectM_none s hs] at h
      cases h
    | some st =>
      rw [show (step s ClientInput.disconnectCall).2 = (disconnectM s).2.1 from rfl,
        disconnectM_some s st hs] at h
      simp at h
  | publishCall subject data =>
    cases hg : (s.waitForInitialConnection && !s.initialConnected) with
    | true =>
      constructor
      · exact (Bool.and_eq_true_iff.mp hg).1
      · exact (Bool.not_eq_true' _).mp (Bool.and_eq_true_iff.mp hg).2
    | false =>
      exfalso
      rw [show (step s (ClientInput.publishCall subject data)) = stepPublish s subject data
        from rfl, stepPublish_core s subject data hg, publishCore_events] at h
      rcases List.mem_append.mp h with h1 | h1
      · simp only [List.mem_map, Option.mem_toList] at h1
        obtain ⟨x, _, hx⟩ := h1
        cases hx
      · by_cases hwake : ((Option.isSome s.stan) && !s.ticking) = true
        · rw [if_pos hwake] at h1
          obtain ⟨m', hm'⟩ := tick_events_shape _ _ h1
          cases hm'
        · rw [if_neg hwake] at h1
          cases h1
  | ackAt k ok =>
    exfalso
    cases hp : s.pending[k]? with
    | none =>
      rw [show (step s (ClientInput.ackAt k ok)) = stepAck s k ok from rfl,
        stepAck_none_eq s k ok hp] at h
      cases h
    | some m' =>
      cases ok with
      | true =>
        rw [show (step s (ClientInput.ackAt k true)) = stepAck s k true from rfl,
          stepAck_ok_eq s k m' hp] at h
        rcases List.mem_cons.mp h with h1 | h1
        · cases h1
        · obtain ⟨m'', hm''⟩ := tick_events_shape _ _ h1
          cases hm''
      | false =>
        rw [show (step s (ClientInput.ackAt k false)) = stepAck s k false from rfl,
          stepAck_fail_eq s k m' hp] at h
        rcases List.mem_cons.mp h with h1 | h1
        · cases h1
        · rcases List.mem_append.mp h1 with h2 | h2
          · simp only [List.mem_map, Option.mem_toList] at h2
            obtain ⟨x, _, hx⟩ := h2
            cases hx
          · obtain ⟨m'', hm''⟩ := tick_events_shape _ _ h2
            cases hm''

theorem execList_cons (s : ClientState) (i : ClientInput) (l : List ClientInput) :
    execList s (i :: l)
      = ((execList (step s i).1 l).1, (step s i).2 ++ (execList (step s i).1 l).2) := rfl

theorem overflowPayloads_append (a b : List ClientEvent) :
    overflowPayloads (a ++ b) = overflowPayloads a ++ overflowPayloads b := by
  simp [overflowPayloads]

theorem delivSeqs_append (a b : List ClientEvent) :
    delivSeqs (a ++ b) = delivSeqs a ++ delivSeqs b := by
  simp [delivSeqs]

theorem delivSeqs_cons_delivered (m : MsgItem) (l : List ClientEvent) :
    delivSeqs (ClientEvent.delivered m :: l) = m.seq :: delivSeqs l := rfl

theorem delivSeqs_cons_publishFailed (m : MsgItem) (l : List ClientEvent) :
    delivSeqs (ClientEvent.publishFailed m :: l) = delivSeqs l := rfl

theorem publishCore_overflows (s : ClientState) (subject data : String) :
    overflowPayloads (publishCore s subject data).2.1
      = ((s.buffer.push { subject := subject, data := data, seq := s.nextSeq }).2).toList := by
  rw [publishCore_events, overflowPayloads_append, overflowPayloads_map]
  by_cases hwake : ((Option.isSome s.stan) && !s.ticking) = true
  · rw [if_pos hwake, overflowPayloads_tick, List.append_nil]
  · rw [if_neg hwake]
    simp [overflowPayloads]

theorem publishM_ok_inv (s : ClientState) (subject data : String)
    (s' : ClientState) (evs : List ClientEvent) (n : Nat)
    (h : publishM s subject data = Except.ok (s', evs, n)) :
    (s.waitForInitialConnection && !s.initialConnected) = false ∧
    s' = (publishCore s subject data).1 ∧ evs = (publishCore s subject data).2.1 ∧
    n = (publishCore s subject data).2.2 := by
  unfold publishM at h
  cases hg : (s.waitForInitialConnection && !s.initialConnected) with
  | true =>
    rw [hg] at h
    simp at h
  | false =>
    rw [hg] at h
    simp only [Bool.false_eq_true, if_false] at h
    injection h with h1
    exact ⟨rfl, (congrArg Prod.fst h1).symm,
      (congrArg (fun x => x.2.1) h1).symm, (congrArg (fun x => x.2.2) h1).symm⟩

theorem execList_buffer (l : List ClientInput) : ∀ (s : ClientState),
    0 < s.buffer.capacity → s.buffer.items.length ≤ s.buffer.capacity →
    (execList s l).1.buffer.capacity = s.buffer.capacity ∧
    (execList s l).1.buffer.items.length ≤ s.buffer.capacity := by
  induction l with
  | nil =>
    intro s h0 h
    exact ⟨rfl, h⟩
  | cons i rest ih =>
    intro s h0 h
    have hc := step_capacity s i
    have hl := step_buffer_le s i h0 h
    have hr := ih (step s i).1 (by rw [hc]; exact h0) (by rw [hc]; exact hl)
    rw [execList_cons]
    refine ⟨by rw [hr.1, hc], ?_⟩
    have := hr.2
    rw [hc] at this
    exact this

theorem execList_initialConnected (l : List ClientInput) : ∀ (s : ClientState),
    s.initialConnected = true →
    (execList s l).1.initialConnected = true ∧
    ClientEvent.publishError ∉ (execList s l).2 := by
  induction l with
  | nil =>
    intro s h
    exact ⟨h, by simp [execList]⟩
  | cons i rest ih =>
    intro s h
    have h1 := step_initialConnected s i h
    have h2 := ih (step s i).1 h1
    rw [execList_cons]
    refine ⟨h2.1, fun hmem => ?_⟩
    rcases List.mem_append.mp hmem with hm | hm
    · have hf := (step_publishError_guard s i hm).2
      rw [h] at hf
      cases hf
    · exact h2.2 hm

theorem execList_stan_none (l : List ClientInput) : ∀ (s : ClientState),
    s.stan = none → (∀ i ∈ l, isConnectCall i = false) →
    (execList s l).1.stan = none ∧
    ∀ m, ClientEvent.sessionPublish m ∉ (execList s l).2 := by
  induction l with
  | nil =>
    intro s h _
    exact ⟨h, by simp [execList]⟩
  | cons i rest ih =>
    intro s h hi
    have hii : isConnectCall i = false := hi i (by simp)
    have h1 := step_stan_stays_none s i h hii
    have h2 := ih (step s i).1 h1 fun j hj => hi j (by simp [hj])
    rw [execList_cons]
    refine ⟨h2.1, fun m hmem => ?_⟩
    rcases List.mem_append.mp hmem with hm | hm
    · exact step_no_sessionPublish_of_stan_none s i h m hm
    · exact h2.2 m hm

theorem statesOf_cons (s : ClientState) (i : ClientInput) (l : List ClientInput) :
    statesOf s (i :: l) = s :: statesOf (step s i).1 l := rfl

theorem pending_singleton (p : List MsgItem) (k : Nat) (m : MsgItem)
    (hp : p[k]? = some m) (hb : p.length ≤ 1) : p = [m] ∧ k = 0 := by
  obtain ⟨hk, hget⟩ := List.getElem?_eq_some.mp hp
  have hk0 : k = 0 := by omega
  subst hk0
  cases p with
  | nil => exact absurd hk (by simp)
  | cons a rest =>
    have hlen : rest.length = 0 := by
      have h1 := hb
      simp only [List.length_cons] at h1
      omega
    have hrest : rest = [] := List.length_eq_zero.mp hlen
    subst hrest
    simp only [List.getElem_cons_zero] at hget
    rw [hget]
    exact ⟨rfl, rfl⟩

theorem tick_events_head (s : ClientState) (e : ClientEvent) (h : e ∈ (tick s).2) :
    ∃ m, s.buffer.items.head? = some m ∧ e = ClientEvent.sessionPublish m := by
  unfold tick at h
  cases hs : s.stan with
  | none =>
    rw [hs] at h
    cases h
  | some st =>
    rw [hs] at h
    cases hb : s.buffer.items with
    | nil => simp [RingBuffer.shift, hb] at h
    | cons x rest =>
      simp only [RingBuffer.shift, hb, List.mem_singleton] at h
      exact ⟨x, by simp [hb], h⟩

theorem inv_of_tick (s : ClientState) (h : Inv s) : Inv (tick s).1 := by
  obtain ⟨h1, h2⟩ := h
  constructor
  · rw [tick_liveQueue]
    exact h1
  · intro m hm
    rw [tick_liveQueue] at hm
    rw [(tick_frame s).2.2.2.1]
    exact h2 m hm

theorem inv_publishCore (s : ClientState) (subject data : String) (h : Inv s) :
    Inv (publishCore s subject data).1 := by
  obtain ⟨hpw, hlt⟩ := h
  have hpre : (if s.buffer.items.length = s.buffer.capacity then s.buffer.items.tail
      else s.buffer.items).Sublist s.buffer.items := by
    by_cases hc : s.buffer.items.length = s.buffer.capacity
    · rw [if_pos hc]
      exact List.tail_sublist _
    · rw [if_neg hc]
  have hsub : (s.pending ++ (if s.buffer.items.length = s.buffer.capacity then
      s.buffer.items.tail else s.buffer.items)).Sublist (liveQueue s) :=
    List.Sublist.append_left hpre _
  constructor
  · rw [publishCore_liveQueue, RingBuffer.push_items, ← List.append_assoc]
    rw [List.pairwise_append]
    refine ⟨List.Pairwise.sublist hsub hpw, by simp, ?_⟩
    intro a ha b hbm
    rw [List.mem_singleton] at hbm
    subst hbm
    show a.seq < s.nextSeq
    exact hlt a (hsub.subset ha)
  · intro m hm
    rw [publishCore_liveQueue, RingBuffer.push_items, ← List.append_assoc] at hm
    rw [(publishCore_frame s subject data).2.2.2]
    rcases List.mem_append.mp hm with h1 | h1
    · have := hlt m (hsub.subset h1)
      omega
    · rw [List.mem_singleton] at h1
      subst h1
      show s.nextSeq < s.nextSeq + 1
      omega

theorem inv_erase (s : ClientState) (k : Nat) (h : Inv s) :
    Inv { s with pending := s.pending.eraseIdx k } := by
  obtain ⟨hpw, hlt⟩ := h
  have hsub : (s.pending.eraseIdx k ++ s.buffer.items).Sublist (liveQueue s) :=
    List.Sublist.append_right (List.eraseIdx_sublist _ _) _
  constructor
  · exact List.Pairwise.sublist hsub hpw
  · intro m hm
    exact hlt m (hsub.subset hm)

theorem inv_ack_fail (s : ClientState) (k : Nat) (m : MsgItem)
    (hp : s.pending[k]? = some m) (hb : s.pending.length ≤ 1) (h : Inv s) :
    Inv { s with pending := s.pending.eraseIdx k
                 buffer := (s.buffer.unshift m).1 } := by
  obtain ⟨hpm, hk0⟩ := pending_singleton s.pending k m hp hb
  subst hk0
  obtain ⟨hpw, hlt⟩ := h
  have hlq : liveQueue s = m :: s.buffer.items := by
    unfold liveQueue
    rw [hpm]
    rfl
  rw [hlq] at hpw hlt
  rw [List.pairwise_cons] at hpw
  have hpre : (if s.buffer.items.length = s.buffer.capacity then s.buffer.items.dropLast
      else s.buffer.items).Sublist s.buffer.items := by
    by_cases hc : s.buffer.items.length = s.buffer.capacity
    · rw [if_pos hc]
      exact List.dropLast_sublist _
    · rw [if_neg hc]
  constructor
  · show List.Pairwise _ (s.pending.eraseIdx 0 ++ ((s.buffer.unshift m).1).items)
    rw [hpm, RingBuffer.unshift_items]
    show List.Pairwise _ (m :: _)
    rw [List.pairwise_cons]
    exact ⟨fun b hb' => hpw.1 b (hpre.subset hb'), List.Pairwise.sublist hpre hpw.2⟩
  · intro x hx
    have hx' : x ∈ s.pending.eraseIdx 0 ++ ((s.buffer.unshift m).1).items := hx
    rw [hpm, RingBuffer.unshift_items] at hx'
    show x.seq < s.nextSeq
    rcases List.mem_cons.mp (by simpa using hx') with h1 | h1
    · subst h1
      exact hlt x (List.mem_cons_self _ _)
    · exact hlt x (List.mem_cons_of_mem m (hpre.subset h1))

theorem inv_step (s : ClientState) (i : ClientInput) (hInv : Inv s)
    (hb : s.pending.length ≤ 1) : Inv (step s i).1 := by
  cases i with
  | connectCall cid clid opts => exact hInv
  | sessionConnect =>
    show Inv (stepSessionConnect s).1
    cases hs : s.stan with
    | none =>
      rw [stepSessionConnect_none s hs]
      exact hInv
    | some st =>
      rw [stepSessionConnect_some s st hs]
      exact inv_of_tick _ hInv
  | disconnectCall =>
    show Inv ((disconnectM s).1)
    cases hs : s.stan with
    | none =>
      rw [disconnectM_none s hs]
      exact hInv
    | some st =>
      rw [disconnectM_some s st hs]
      exact hInv
  | publishCall subject data =>
    show Inv (stepPublish s subject data).1
    cases hg : (s.waitForInitialConnection && !s.initialConnected) with
    | true =>
      rw [stepPublish_guard s subject data hg]
      exact hInv
    | false =>
      rw [stepPublish_core s subject data hg]
      exact inv_publishCore s subject data hInv
  | ackAt k ok =>
    show Inv (stepAck s k ok).1
    cases hp : s.pending[k]? with
    | none =>
      rw [stepAck_none_eq s k ok hp]
      exact hInv
    | some m =>
      cases ok with
      | true =>
        rw [stepAck_ok_eq s k m hp]
        exact inv_of_tick _ (inv_erase s k hInv)
      | false =>
        rw [stepAck_fail_eq s k m hp]
        exact inv_of_tick _ (inv_ack_fail s k m hp hb hInv)

theorem step_nextSeq_ge (s : ClientState) (i : ClientInput) :
    s.nextSeq ≤ (step s i).1.nextSeq := by
  cases i with
  | connectCall cid clid opts => exact le_refl _
  | sessionConnect =>
    show s.nextSeq ≤ (stepSessionConnect s).1.nextSeq
    cases hs : s.stan with
    | none =>
      rw [stepSessionConnect_none s hs]
    | some st =>
      rw [stepSessionConnect_some s st hs]
      rw [(tick_frame _).2.2.2.1]
  | disconnectCall =>
    show s.nextSeq ≤ ((disconnectM s).1).nextSeq
    cases hs : s.stan with
    | none => rw [disconnectM_none s hs]
    | some st => rw [disconnectM_some s st hs]
  | publishCall subject data =>
    show s.nextSeq ≤ (stepPublish s subject data).1.nextSeq
    cases hg : (s.waitForInitialConnection && !s.initialConnected) with
    | true => rw [stepPublish_guard s subject data hg]
    | false =>
      rw [stepPublish_core s subject data hg]
      rw [(publishCore_frame s subject data).2.2.2]
      omega
  | ackAt k ok =>
    show s.nextSeq ≤ (stepAck s k ok).1.nextSeq
    cases hp : s.pending[k]? with
    | none => rw [stepAck_none_eq s k ok hp]
    | some m =>
      cases ok with
      | true =>
        rw [stepAck_ok_eq s k m hp]
        rw [(tick_frame _).2.2.2.1]
      | false =>
        rw [stepAck_fail_eq s k m hp]
        rw [(tick_frame _).2.2.2.1]

theorem step_liveQueue_mem (s : ClientState) (i : ClientInput) (x : MsgItem)
    (hx : x ∈ liveQueue (step s i).1) : x ∈ liveQueue s ∨ x.seq = s.nextSeq := by
  cases i with
  | connectCall cid clid opts => exact Or.inl hx
  | sessionConnect =>
    rw [show (step s ClientInput.sessionConnect) = stepSessionConnect s from rfl] at hx
    cases hs : s.stan with
    | none =>
      rw [stepSessionConnect_none s hs] at hx
      exact Or.inl hx
    | some st =>
      rw [stepSessionConnect_some s st hs, tick_liveQueue] at hx
      exact Or.inl hx
  | disconnectCall =>
    rw [show (step s ClientInput.disconnectCall).1 = (disconnectM s).1 from rfl] at hx
    cases hs : s.stan with
    | none =>
      rw [disconnectM_none s hs] at hx
      exact Or.inl hx
    | some st =>
      rw [disconnectM_some s st hs] at hx
      exact Or.inl hx
  | publishCall subject data =>
    rw [show (step s (ClientInput.publishCall subject data)) = stepPublish s subject data
      from rfl] at hx
    cases hg : (s.waitForInitialConnection && !s.initialConnected) with
    | true =>
      rw [stepPublish_guard s subject data hg] at hx
      exact Or.inl hx
    | false =>
      rw [stepPublish_core s subject data hg] at hx
      rw [publishCore_liveQueue, RingBuffer.push_items] at hx
      rcases List.mem_append.mp hx with h1 | h1
      · exact Or.inl (List.mem_append_left _ h1)
      · rcases List.mem_append.mp h1 with h2 | h2
        · refine Or.inl (List.mem_append_right _ ?_)
          by_cases hc : s.buffer.items.length = s.buffer.capacity
          · rw [if_pos hc] at h2
            exact (List.tail_sublist _).subset h2
          · rw [if_neg hc] at h2
            exact h2
        · rw [List.mem_singleton] at h2
          subst h2
          exact Or.inr rfl
  | ackAt k ok =>
    rw [show (step s (ClientInput.ackAt k ok)) = stepAck s k ok from rfl] at hx
    cases hp : s.pending[k]? with
    | none =>
      rw [stepAck_none_eq s k ok hp] at hx
      exact Or.inl hx
    | some m =>
      cases ok with
      | true =>
        rw [stepAck_ok_eq s k m hp, tick_liveQueue] at hx
        have hx' : x ∈ s.pending.eraseIdx k ++ s.buffer.items := hx
        rcases List.mem_append.mp hx' with h1 | h1
        · exact Or.inl (List.mem_append_left _ ((List.eraseIdx_sublist _ _).subset h1))
        · exact Or.inl (List.mem_append_right _ h1)
      | false =>
        rw [stepAck_fail_eq s k m hp, tick_liveQueue] at hx
        have hx' : x ∈ s.pending.eraseIdx k ++ ((s.buffer.unshift m).1).items := hx
        rcases List.mem_append.mp hx' with h1 | h1
        · exact Or.inl (List.mem_append_left _ ((List.eraseIdx_sublist _ _).subset h1))
        · rw [RingBuffer.unshift_items] at h1
          rcases List.mem_cons.mp h1 with h2 | h2
          · subst h2
            exact Or.inl (List.mem_append_left _ (List.getElem?_mem hp))
          · refine Or.inl (List.mem_append_right _ ?_)
            by_cases hc : s.buffer.items.length = s.buffer.capacity
            · rw [if_pos hc] at h2
              exact (List.dropLast_sublist _).subset h2
            · rw [if_neg hc] at h2
              exact h2

theorem seqLB_step (k : Nat) (s : ClientState) (i : ClientInput) (h : SeqLB k s) :
    SeqLB k (step s i).1 := by
  constructor
  · intro x hx
    rcases step_liveQueue_mem s i x hx with h1 | h1
    · exact h.1 x h1
    · rw [h1]
      exact h.2
  · exact le_trans h.2 (step_nextSeq_ge s i)

theorem delivSeqs_mem (evs : List ClientEvent) (q : Nat) (h : q ∈ delivSeqs evs) :
    ∃ m : MsgItem, ClientEvent.delivered m ∈ evs ∧ m.seq = q := by
  unfold delivSeqs at h
  obtain ⟨e, he, hfe⟩ := List.mem_filterMap.mp h
  cases e with
  | delivered m =>
    simp only [Option.some.injEq] at hfe
    exact ⟨m, he, hfe⟩
  | overflowDrop m => simp at hfe
  | sessionPublish m => simp at hfe
  | publishFailed m => simp at hfe
  | publishError => simp at hfe
  | sessionClose => simp at hfe

theorem execList_deliv_ge (l : List ClientInput) : ∀ (s : ClientState) (k : Nat),
    SeqLB k s → ∀ q ∈ delivSeqs (execList s l).2, k ≤ q := by
  induction l with
  | nil =>
    intro s k _ q hq
    simp [execList, delivSeqs] at hq
  | cons i rest ih =>
    intro s k h q hq
    rw [execList_cons, delivSeqs_append] at hq
    rcases List.mem_append.mp hq with h1 | h1
    · obtain ⟨m, hmem, hseq⟩ := delivSeqs_mem _ q h1
      have hm : m ∈ s.pending := step_delivered_mem s i m hmem
      have := h.1 m (List.mem_append_left _ hm)
      omega
    · exact ih (step s i).1 k (seqLB_step k s i h) q h1

theorem step_delivSeqs_shape (s : ClientState) (i : ClientInput) :
    delivSeqs (step s i).2 = [] ∨
    ∃ k m, i = ClientInput.ackAt k true ∧ s.pending[k]? = some m ∧
      delivSeqs (step s i).2 = [m.seq] := by
  cases i with
  | connectCall cid clid opts => exact Or.inl rfl
  | sessionConnect =>
    left
    show delivSeqs (stepSessionConnect s).2 = []
    cases hs : s.stan with
    | none =>
      rw [stepSessionConnect_none s hs]
      rfl
    | some st =>
      rw [stepSessionConnect_some s st hs]
      exact delivSeqs_tick _
  | disconnectCall =>
    left
    show delivSeqs ((disconnectM s).2.1) = []
    cases hs : s.stan with
    | none =>
      rw [disconnectM_none s hs]
      rfl
    | some st =>
      rw [disconnectM_some s st hs]
      rfl
  | publishCall subject data =>
    left
    show delivSeqs (stepPublish s subject data).2 = []
    cases hg : (s.waitForInitialConnection && !s.initialConnected) with
    | true =>
      rw [stepPublish_guard s subject data hg]
      rfl
    | false =>
      rw [stepPublish_core s subject data hg, publishCore_events, delivSeqs_append,
        delivSeqs_overflows]
      by_cases hwake : ((Option.isSome s.stan) && !s.ticking) = true
      · rw [if_pos hwake, delivSeqs_tick]
        rfl
      · rw [if_neg hwake]
        rfl
  | ackAt k ok =>
    cases hp : s.pending[k]? with
    | none =>
      left
      show delivSeqs (stepAck s k ok).2 = []
      rw [stepAck_none_eq s k ok hp]
      rfl
    | some m =>
      cases ok with
      | true =>
        right
        refine ⟨k, m, rfl, hp, ?_⟩
        show delivSeqs (stepAck s k true).2 = [m.seq]
        rw [stepAck_ok_eq s k m hp, delivSeqs_cons_delivered, delivSeqs_tick]
      | false =>
        left
        show delivSeqs (stepAck s k false).2 = []
        rw [stepAck_fail_eq s k m hp, delivSeqs_cons_publishFailed, delivSeqs_append,
          delivSeqs_overflows, delivSeqs_tick]
        rfl

theorem seqLB_after_ack (s : ClientState) (k : Nat) (m : MsgItem)
    (hp : s.pending[k]? = some m) (hb : s.pending.length ≤ 1) (hInv : Inv s) :
    SeqLB (m.seq + 1) (step s (ClientInput.ackAt k true)).1 := by
  obtain ⟨hpm, hk0⟩ := pending_singleton s.pending k m hp hb
  subst hk0
  obtain ⟨hpw, hlt⟩ := hInv
  have hlq : liveQueue s = m :: s.buffer.items := by
    unfold liveQueue
    rw [hpm]
    rfl
  rw [hlq] at hpw hlt
  rw [List.pairwise_cons] at hpw
  constructor
  · intro x hx
    rw [show (step s (ClientInput.ackAt 0 true)) = stepAck s 0 true from rfl,
      stepAck_ok_eq s 0 m hp, tick_liveQueue] at hx
    have hx' : x ∈ s.pending.eraseIdx 0 ++ s.buffer.items := hx
    rw [hpm] at hx'
    have hx'' : x ∈ s.buffer.items := by simpa using hx'
    have := hpw.1 x hx''
    omega
  · rw [show (step s (ClientInput.ackAt 0 true)) = stepAck s 0 true from rfl,
      stepAck_ok_eq s 0 m hp, (tick_frame _).2.2.2.1]
    show m.seq + 1 ≤ s.nextSeq
    have := hlt m (List.mem_cons_self _ _)
    omega

theorem execList_deliv_pairwise (l : List ClientInput) : ∀ (s : ClientState),
    Inv s → (∀ t ∈ statesOf s l, t.pending.length ≤ 1) →
    List.Pairwise (· < ·) (delivSeqs (execList s l).2) := by
  induction l with
  | nil =>
    intro s _ _
    simp [execList, delivSeqs]
  | cons i rest ih =>
    intro s hInv hb
    have hb0 : s.pending.length ≤ 1 := by
      refine hb s ?_
      rw [statesOf_cons]
      exact List.mem_cons_self _ _
    have hbr : ∀ t ∈ statesOf (step s i).1 rest, t.pending.length ≤ 1 := by
      intro t ht
      refine hb t ?_
      rw [statesOf_cons]
      exact List.mem_cons_of_mem _ ht
    have hInv' : Inv (step s i).1 := inv_step s i hInv hb0
    rw [execList_cons, delivSeqs_append, List.pairwise_append]
    refine ⟨?_, ih (step s i).1 hInv' hbr, ?_⟩
    · rcases step_delivSeqs_shape s i with hsh | ⟨k, m, _, _, hsh⟩ <;> rw [hsh] <;> simp
    · intro a ha b hbm
      rcases step_delivSeqs_shape s i with hsh | ⟨k, m, hi, hp, hsh⟩
      · rw [hsh] at ha
        cases ha
      · rw [hsh] at ha
        rw [List.mem_singleton] at ha
        subst ha
        subst hi
        have hlb := seqLB_after_ack s k m hp hb0 hInv
        have := execList_deliv_ge rest (step s (ClientInput.ackAt k true)).1
          (m.seq + 1) hlb b hbm
        omega

/-! ### C1 — escalation to reconnect at the retry threshold -/

/-- C1: whenever the consecutive-failure counter (`publishFailCount`, the
spec's RetryState) reaches the configured threshold — the `run` revision
escalates once the counter passes 10, so the threshold is 11 — the delivery
loop's next action after the failing publish attempt is to invoke
`reconnect()`: it does not schedule another retry of the item (and below the
threshold the retry it schedules is delayed by `100 * count` ms, never
immediate). -/
theorem run_retry_threshold_reconnect (s : RunState) :
    (retryThreshold ≤ s.publishFailCount + 1 →
      (runOnPublishError s).2 = RunAction.reconnect ∧
      (runOnPublishError s).1.buffer = s.buffer ∧
      ∀ d, (runOnPublishError s).2 ≠ RunAction.scheduleRetry d) ∧
    (s.publishFailCount + 1 < retryThreshold →
      ∃ d, 0 < d ∧ (runOnPublishError s).2 = RunAction.scheduleRetry d) := by
  constructor
  · intro h
    have h10 : s.publishFailCount + 1 > 10 := by
      simp only [retryThreshold] at h; omega
    simp [runOnPublishError, h10]
  · intro h
    have h10 : ¬ s.publishFailCount + 1 > 10 := by
      simp only [retryThreshold] at h; omega
    refine ⟨100 * (s.publishFailCount + 1), by omega, ?_⟩
    simp [runOnPublishError, h10]

/-- Witness for C1: with the counter at 10, one more failure reaches the
threshold 11 and the callback's action is `reconnect`, with the failed item
left at the front of the buffer; with the counter at 0 the action is a
delayed retry. -/
theorem run_retry_threshold_reconnect_witness :
    retryThreshold ≤ 10 + 1 ∧
    (runOnPublishError { buffer := { capacity := 3, items := [] }, publishFailCount := 10 }).2
      = RunAction.reconnect ∧
    (0 : Nat) + 1 < retryThreshold ∧
    (runOnPublishError { buffer := { capacity := 3, items := [] }, publishFailCount := 0 }).2
      = RunAction.scheduleRetry 100 :=
  ⟨by decide,
   ((run_retry_threshold_reconnect _).1 (by decide)).1,
   by decide,
   rfl⟩

/-! ### C7 — disconnect is idempotent while disconnected -/

/-- C7: calling `disconnect()` while no session is held resolves immediately,
issues no session operation, and leaves every field of the client state
unchanged. -/
theorem disconnect_idempotent (s : ClientState) (h : s.stan = none) :
    disconnectM s = (s, [], DisconnectOutcome.resolvedImmediately) := by
  simp [disconnectM, h]

/-- Witness for C7: a freshly constructed client holds no session, and
`disconnect()` on it is a no-op that resolves immediately. -/
theorem disconnect_idempotent_witness :
    (initClient 3 false).stan = none ∧
    disconnectM (initClient 3 false)
      = (initClient 3 false, [], DisconnectOutcome.resolvedImmediately) :=
  ⟨rfl, disconnect_idempotent _ rfl⟩

/-! ### C8 — connect options merged over permissive defaults -/

/-- C8: the options `connect` stores and passes to the session are the
caller's options merged over the defaults `maxReconnectAttempts = -1`,
`reconnect = true`, `waitOnFirstConnect = true`: each of these keys is the
caller's value when the caller supplied it and the default otherwise, other
caller keys pass through untouched, and the `connect` step stores exactly this
merge as `clientOptions`. -/
theorem connect_options_merge (o : Option StanOptions) :
    (connectClientOptions o).maxReconnectAttempts
        = some ((o.bind StanOptions.maxReconnectAttempts).getD (-1)) ∧
    (connectClientOptions o).reconnect
        = some ((o.bind StanOptions.reconnect).getD true) ∧
    (connectClientOptions o).waitOnFirstConnect
        = some ((o.bind StanOptions.waitOnFirstConnect).getD true) ∧
    (connectClientOptions o).url = o.bind StanOptions.url ∧
    ∀ s cid clid,
      (step s (ClientInput.connectCall cid clid o)).1.clientOptions
        = some (connectClientOptions o) := by
  obtain _ | oo := o
  · exact ⟨rfl, rfl, rfl, rfl, fun s cid clid => rfl⟩
  · refine ⟨?_, ?_, ?_, ?_, fun s cid clid => rfl⟩
    · simpa [connectClientOptions, objectAssign, defaultStanOptions] using
        orElse_some_getD oo.maxReconnectAttempts (-1)
    · simpa [connectClientOptions, objectAssign, defaultStanOptions] using
        orElse_some_getD oo.reconnect true
    · simpa [connectClientOptions, objectAssign, defaultStanOptions] using
        orElse_some_getD oo.waitOnFirstConnect true
    · cases h : oo.url <;>
        simp [connectClientOptions, objectAssign, defaultStanOptions, h]

/-! ### C2 — bounded buffer, FIFO eviction, one overflow signal per eviction -/

/-- C2: on a client built with capacity `N > 0`, the buffer never holds more
than `N` items whatever stimuli arrive; when a publish succeeds with the
buffer at capacity, the overflow hook receives exactly the evicted oldest
(head) item, once; and a publish below capacity evicts nothing. -/
theorem buffer_capacity_fifo (N : Nat) (w : Bool) (l : List ClientInput)
    (s : ClientState) (subject data : String) (h0 : 0 < N) :
    ((execList (initClient N w) l).1.buffer.items.length ≤ N) ∧
    (s.buffer.capacity = N → s.buffer.items.length = N →
      ∀ h, s.buffer.items.head? = some h →
        ∀ s' evs n, publishM s subject data = Except.ok (s', evs, n) →
          overflowPayloads evs = [h]) ∧
    (s.buffer.capacity = N → s.buffer.items.length < N →
      ∀ s' evs n, publishM s subject data = Except.ok (s', evs, n) →
        overflowPayloads evs = []) := by
  refine ⟨?_, ?_, ?_⟩
  · have hb := execList_buffer l (initClient N w) h0 (by simp [initClient])
    exact hb.2
  · intro hcap hlen h hh s' evs n hok
    obtain ⟨-, -, hevs, -⟩ := publishM_ok_inv s subject data s' evs n hok
    rw [hevs, publishCore_overflows, RingBuffer.push_evicted]
    rw [if_pos (by rw [hlen, hcap]), hh]
    rfl
  · intro hcap hlen s' evs n hok
    obtain ⟨-, -, hevs, -⟩ := publishM_ok_inv s subject data s' evs n hok
    rw [hevs, publishCore_overflows, RingBuffer.push_evicted]
    rw [if_neg (by rw [hcap]; omega)]
    rfl

/-- Witness for C2, the spec's scenario: capacity 3, publish A, B, C, D while
disconnected.  After A, B, C the buffer is at capacity with A oldest; the
publish of D hands exactly A to the overflow hook, and the bound holds over
the whole run (the final buffer holds B, C, D). -/
theorem buffer_capacity_fifo_witness :
    (execList (initClient 3 false)
        [ClientInput.publishCall "s" "A", ClientInput.publishCall "s" "B",
         ClientInput.publishCall "s" "C", ClientInput.publishCall "s" "D"]).1.buffer.items
      = [{ subject := "s", data := "B", seq := 1 }, { subject := "s", data := "C", seq := 2 },
         { subject := "s", data := "D", seq := 3 }] ∧
    (execList (initClient 3 false)
        [ClientInput.publishCall "s" "A", ClientInput.publishCall "s" "B",
         ClientInput.publishCall "s" "C", ClientInput.publishCall "s" "D"]).1.buffer.items.length
      ≤ 3 ∧
    overflowPayloads (publishCore
        (execList (initClient 3 false)
          [ClientInput.publishCall "s" "A", ClientInput.publishCall "s" "B",
           ClientInput.publishCall "s" "C"]).1 "s" "D").2.1
      = [{ subject := "s", data := "A", seq := 0 }] := by
  refine ⟨by decide, ?_, ?_⟩
  · exact (buffer_capacity_fifo 3 false
      [ClientInput.publishCall "s" "A", ClientInput.publishCall "s" "B",
       ClientInput.publishCall "s" "C", ClientInput.publishCall "s" "D"]
      (initClient 3 false) "s" "D" (by decide)).1
  · exact (buffer_capacity_fifo 3 false []
      (execList (initClient 3 false)
        [ClientInput.publishCall "s" "A", ClientInput.publishCall "s" "B",
         ClientInput.publishCall "s" "C"]).1 "s" "D" (by decide)).2.1
      (by decide) (by decide) _ (by decide) _ _ _ rfl

/-! ### C4 — publish fails exactly on the before-initial-connection guard -/

/-- C4: `publish` raises exactly when `waitForInitialConnection` is set and no
connection has ever succeeded; in that case the handler leaves the client
state untouched; in every other case it succeeds, returning the buffer length
of the resulting state, with the new item (tagged with the current ghost
sequence number) now last in the client's live queue. -/
theorem publish_invalid_state (s : ClientState) (subject data : String) :
    ((∃ e, publishM s subject data = Except.error e) ↔
      s.waitForInitialConnection = true ∧ s.initialConnected = false) ∧
    (s.waitForInitialConnection = true → s.initialConnected = false →
      step s (ClientInput.publishCall subject data) = (s, [ClientEvent.publishError])) ∧
    (∀ s' evs n, publishM s subject data = Except.ok (s', evs, n) →
      n = s'.buffer.length ∧
      (liveQueue s').getLast? = some { subject := subject, data := data, seq := s.nextSeq }) := by
  refine ⟨⟨?_, ?_⟩, ?_, ?_⟩
  · rintro ⟨e, he⟩
    cases hg : (s.waitForInitialConnection && !s.initialConnected) with
    | true =>
      exact ⟨(Bool.and_eq_true_iff.mp hg).1,
        (Bool.not_eq_true' _).mp (Bool.and_eq_true_iff.mp hg).2⟩
    | false =>
      unfold publishM at he
      rw [hg] at he
      simp at he
  · rintro ⟨hw, hic⟩
    refine ⟨PublishError.invalidState, ?_⟩
    unfold publishM
    rw [hw, hic]
    rfl
  · intro hw hic
    show stepPublish s subject data = _
    exact stepPublish_guard s subject data (by rw [hw, hic]; rfl)
  · intro s' evs n hok
    obtain ⟨-, hs', -, hn⟩ := publishM_ok_inv s subject data s' evs n hok
    constructor
    · rw [hn, hs']
      exact publishCore_length_eq s subject data
    · rw [hs']
      exact publishCore_getLast s subject data

/-- Witness for C4: on `waitForInitialConnection = true` and never connected,
a publish raises and mutates nothing; on the default configuration it
succeeds, returning the new length with the item appended. -/
theorem publish_invalid_state_witness :
    (step (initClient 3 true) (ClientInput.publishCall "a" "b")
      = (initClient 3 true, [ClientEvent.publishError])) ∧
    (publishCore (initClient 3 false) "a" "b").2.2
      = ((publishCore (initClient 3 false) "a" "b").1).buffer.length ∧
    (liveQueue (publishCore (initClient 3 false) "a" "b").1).getLast?
      = some { subject := "a", data := "b", seq := 0 } := by
  have h := (publish_invalid_state (initClient 3 false) "a" "b").2.2
    (publishCore (initClient 3 false) "a" "b").1
    (publishCore (initClient 3 false) "a" "b").2.1
    (publishCore (initClient 3 false) "a" "b").2.2 rfl
  exact ⟨(publish_invalid_state (initClient 3 true) "a" "b").2.1 rfl rfl, h.1, h.2⟩

/-! ### C5 — session publishes and the connection state -/

/-- Counterexample to C5: `connect()` stores the session object synchronously,
before the session's `connect` event fires, and `publish()` wakes `tick` on
mere session presence.  So with the client still `Connecting` a `publish()`
call issues a session publish, where the claim says it should only enqueue. -/
theorem publish_while_connecting_counterexample :
    ((step (initClient 3 false) (ClientInput.connectCall "c" "i" none)).1.stan
      = some SessionStatus.connecting) ∧
    (step (step (initClient 3 false) (ClientInput.connectCall "c" "i" none)).1
        (ClientInput.publishCall "a" "b")).2
      = [ClientEvent.sessionPublish { subject := "a", data := "b", seq := 0 }] := by
  exact ⟨rfl, by decide⟩

/-- C5 (amended): no handler issues a session publish while the client holds
no session (`stan` cleared, the `Disconnected` state); a `publish()` call in
that state only enqueues.  While `Connecting` with the session object already
stored, however, a publish may be issued (see the counterexample). -/
theorem no_session_publish_without_session (s : ClientState) (i : ClientInput)
    (h : s.stan = none) (m : MsgItem) :
    ClientEvent.sessionPublish m ∉ (step s i).2 :=
  step_no_sessionPublish_of_stan_none s i h m

/-- Witness for C5 (amended): a publish on a disconnected client emits no
session publish. -/
theorem no_session_publish_without_session_witness :
    (initClient 3 false).stan = none ∧
    ClientEvent.sessionPublish { subject := "a", data := "b", seq := 0 }
      ∉ (step (initClient 3 false) (ClientInput.publishCall "a" "b")).2 :=
  ⟨rfl, no_session_publish_without_session (initClient 3 false)
    (ClientInput.publishCall "a" "b") rfl _⟩

/-! ### C9 — initialConnected is never reset -/

/-- C9: once some connect has succeeded (`initialConnected = true`), every
later handler preserves the flag, and `publish` never raises the
before-initial-connection error again, whatever happens — disconnects
included; and a session `connect` event always sets the flag. -/
theorem initial_connected_never_reset (s : ClientState) (l : List ClientInput)
    (h : s.initialConnected = true) :
    (execList s l).1.initialConnected = true ∧
    ClientEvent.publishError ∉ (execList s l).2 ∧
    ∀ t : ClientState, ∀ st, t.stan = some st →
      (step t ClientInput.sessionConnect).1.initialConnected = true := by
  refine ⟨(execList_initialConnected l s h).1, (execList_initialConnected l s h).2, ?_⟩
  intro t st hst
  show (stepSessionConnect t).1.initialConnected = true
  rw [stepSessionConnect_some t st hst]
  exact (tick_frame _).2.1

/-- Witness for C9: with the flag set, disconnecting and then publishing
raises no error and leaves the flag set. -/
theorem initial_connected_never_reset_witness :
    (execList { initClient 3 true with initialConnected := true }
        [ClientInput.disconnectCall, ClientInput.publishCall "a" "b"]).1.initialConnected
      = true ∧
    ClientEvent.publishError ∉ (execList { initClient 3 true with initialConnected := true }
        [ClientInput.disconnectCall, ClientInput.publishCall "a" "b"]).2 := by
  have h := initial_connected_never_reset { initClient 3 true with initialConnected := true }
    [ClientInput.disconnectCall, ClientInput.publishCall "a" "b"] rfl
  exact ⟨h.1, h.2.1⟩

/-! ### C10 — publishing between disconnect and the next connect -/

/-- Counterexample to C10: with `waitForInitialConnection` set and no
connection ever made, `disconnect()` is a no-op and a following `publish`
raises instead of enqueueing, so not every post-disconnect publish "enqueues
the item and returns the new buffer length". -/
theorem publish_after_disconnect_counterexample :
    (disconnectM (initClient 3 true)).1 = initClient 3 true ∧
    publishM (initClient 3 true) "a" "b" = Except.error PublishError.invalidState ∧
    (step (initClient 3 true) (ClientInput.publishCall "a" "b")).1.buffer.items = [] := by
  exact ⟨rfl, rfl, rfl⟩

/-- C10 (amended): `disconnect()` clears the stored session synchronously;
afterwards, any publish that passes the initial-connection guard only pushes
the item (every other field unchanged, no `tick` wake, no session publish) and
returns the new buffer length; and no session publish at all is issued from a
sessionless state until the next `connect()` call. -/
theorem disconnect_clears_session_publish_only_enqueues
    (s : ClientState) (subject data : String) (l : List ClientInput) :
    ((disconnectM s).1.stan = none) ∧
    (s.stan = none → (s.waitForInitialConnection = false ∨ s.initialConnected = true) →
      publishM s subject data
        = Except.ok
            ({ s with
                buffer := (s.buffer.push { subject := subject, data := data, seq := s.nextSeq }).1
                nextSeq := s.nextSeq + 1 },
             ((s.buffer.push { subject := subject, data := data, seq := s.nextSeq }).2).toList.map
               ClientEvent.overflowDrop,
             ((s.buffer.push { subject := subject, data := data, seq := s.nextSeq }).1).items.length)) ∧
    (s.stan = none → (∀ i ∈ l, isConnectCall i = false) →
      (execList s l).1.stan = none ∧
      ∀ m, ClientEvent.sessionPublish m ∉ (execList s l).2) := by
  refine ⟨?_, ?_, ?_⟩
  · cases hs : s.stan with
    | none =>
      rw [disconnectM_none s hs]
      exact hs
    | some st =>
      rw [disconnectM_some s st hs]
  · intro hs hcase
    have hg : (s.waitForInitialConnection && !s.initialConnected) = false := by
      rcases hcase with hw | hic
      · simp [hw]
      · simp [hic]
    unfold publishM
    rw [hg]
    simp only [Bool.false_eq_true, if_false]
    rw [publishCore_stan_none s subject data hs]
  · intro hs hi
    exact execList_stan_none l s hs hi

/-- Witness for C10 (amended): disconnecting a connected client clears the
session; a publish on the sessionless default client succeeds by pure
enqueue, and the run issues no session publish. -/
theorem disconnect_clears_session_publish_only_enqueues_witness :
    ((disconnectM { initClient 3 false with stan := some SessionStatus.connected }).1.stan
      = none) ∧
    publishM (initClient 3 false) "a" "b"
      = Except.ok
          ({ initClient 3 false with
              buffer := { capacity := 3, items := [{ subject := "a", data := "b", seq := 0 }] }
              nextSeq := 1 },
           [], 1) ∧
    (execList (initClient 3 false) [ClientInput.publishCall "a" "b"]).1.stan = none := by
  have h1 := disconnect_clears_session_publish_only_enqueues
    { initClient 3 false with stan := some SessionStatus.connected } "a" "b" []
  have h2 := disconnect_clears_session_publish_only_enqueues (initClient 3 false) "a" "b"
    [ClientInput.publishCall "a" "b"]
  refine ⟨h1.1, ?_, (h2.2.2 rfl (by decide)).1⟩
  have h3 := h2.2.1 rfl (Or.inl rfl)
  rw [h3]
  rfl

/-! ### C3 — failed items are requeued at the front -/

/-- Counterexample to C3: the `connect` event handler calls `tick()`
unconditionally, so a publish issued while connecting can still be pending
when the handler issues a second one.  With both attempts in flight and their
acknowledgments arriving out of order, the trace below fails message 0, then
delivers message 1 (published after it) before message 0 completes — the
claim's ordering consequence is false even though the failed item was
requeued at the front. -/
theorem failure_requeue_order_counterexample :
    (execList (initClient 3 false)
        [ClientInput.connectCall "c" "i" none,
         ClientInput.publishCall "s" "p0",
         ClientInput.publishCall "s" "p1",
         ClientInput.sessionConnect,
         ClientInput.ackAt 0 false,
         ClientInput.ackAt 0 true,
         ClientInput.ackAt 0 true]).2
      = [ClientEvent.sessionPublish { subject := "s", data := "p0", seq := 0 },
         ClientEvent.sessionPublish { subject := "s", data := "p1", seq := 1 },
         ClientEvent.publishFailed { subject := "s", data := "p0", seq := 0 },
         ClientEvent.sessionPublish { subject := "s", data := "p0", seq := 0 },
         ClientEvent.delivered { subject := "s", data := "p1", seq := 1 },
         ClientEvent.delivered { subject := "s", data := "p0", seq := 0 }] ∧
    delivSeqs (execList (initClient 3 false)
        [ClientInput.connectCall "c" "i" none,
         ClientInput.publishCall "s" "p0",
         ClientInput.publishCall "s" "p1",
         ClientInput.sessionConnect,
         ClientInput.ackAt 0 false,
         ClientInput.ackAt 0 true,
         ClientInput.ackAt 0 true]).2 = [1, 0] ∧
    ¬ List.Pairwise (· < ·) [1, 0] := by
  exact ⟨by decide, by decide, by decide⟩

/-- C3 (amended): on a failed publish acknowledgment the item is re-inserted
at the front of the buffer before the handler's own next delivery step — any
session publish issued inside that handler re-issues exactly the failed item,
and with no session held the item is left at the buffer's head.  The claim's
global consequence — no later-published item delivered before the failed one
completes — holds for every run in which publish attempts never overlap (at
most one acknowledgment pending at every point); overlapping in-flight
attempts, which the connect handler's unconditional `tick()` makes possible,
break it (see the counterexample). -/
theorem failure_requeue_order (s : ClientState) (k : Nat) (m : MsgItem)
    (l : List ClientInput) (N : Nat) (w : Bool) :
    (s.pending[k]? = some m →
      (∀ e ∈ (stepAck s k false).2, ∀ y, e = ClientEvent.sessionPublish y → y = m) ∧
      (s.stan = none → (stepAck s k false).1.buffer.items.head? = some m)) ∧
    ((∀ t ∈ statesOf (initClient N w) l, t.pending.length ≤ 1) →
      List.Pairwise (· < ·) (delivSeqs (execList (initClient N w) l).2)) := by
  constructor
  · intro hp
    constructor
    · intro e he y hey
      rw [stepAck_fail_eq s k m hp] at he
      rcases List.mem_cons.mp he with h1 | h1
      · rw [h1] at hey
        cases hey
      · rcases List.mem_append.mp h1 with h2 | h2
        · simp only [List.mem_map, Option.mem_toList] at h2
          obtain ⟨x, _, hx⟩ := h2
          rw [← hx] at hey
          cases hey
        · obtain ⟨m', hhead, hee⟩ := tick_events_head _ e h2
          rw [hee] at hey
          injection hey with hyy
          have hh2 : ((s.buffer.unshift m).1).items.head? = some m' := hhead
          rw [RingBuffer.unshift_items] at hh2
          simp only [List.head?_cons, Option.some.injEq] at hh2
          rw [← hyy]
          exact hh2.symm
    · intro hs
      rw [stepAck_fail_eq s k m hp]
      rw [tick_stan_none { s with pending := s.pending.eraseIdx k
                                  buffer := (s.buffer.unshift m).1 } hs]
      show ((s.buffer.unshift m).1).items.head? = some m
      rw [RingBuffer.unshift_items]
      rfl
  · intro hb
    refine execList_deliv_pairwise l (initClient N w) ⟨?_, ?_⟩ hb
    · exact List.Pairwise.nil
    · intro x hx
      exact absurd hx (List.not_mem_nil x)

/-- Witness for C3: a failed acknowledgment on a disconnected client leaves
the failed item at the buffer's head; and in a non-overlapping run — connect,
session ready, two publishes, a failure of the first, then two successes —
deliveries happen in publish order. -/
theorem failure_requeue_order_witness :
    (stepAck { initClient 3 false with pending := [{ subject := "s", data := "q", seq := 0 }] }
        0 false).1.buffer.items.head? = some { subject := "s", data := "q", seq := 0 } ∧
    List.Pairwise (· < ·) (delivSeqs (execList (initClient 3 false)
        [ClientInput.connectCall "c" "i" none, ClientInput.sessionConnect,
         ClientInput.publishCall "s" "a", ClientInput.publishCall "s" "b",
         ClientInput.ackAt 0 false, ClientInput.ackAt 0 true,
         ClientInput.ackAt 0 true]).2) := by
  constructor
  · exact ((failure_requeue_order
      { initClient 3 false with pending := [{ subject := "s", data := "q", seq := 0 }] }
      0 { subject := "s", data := "q", seq := 0 } [] 3 false).1 rfl).2 rfl
  · exact (failure_requeue_order (initClient 3 false) 0
      { subject := "s", data := "q", seq := 0 }
      [ClientInput.connectCall "c" "i" none, ClientInput.sessionConnect,
       ClientInput.publishCall "s" "a", ClientInput.publishCall "s" "b",
       ClientInput.ackAt 0 false, ClientInput.ackAt 0 true, ClientInput.ackAt 0 true]
      3 false).2 (by decide)

/-! ### C6 — the promise returned by connect() -/

theorem connectHandle_promise_stable (st : ConnectPromiseState) (e : SessEvt)
    (h : st.promise ≠ PromiseState.pending) :
    (connectHandle st e).promise = st.promise := by
  obtain ⟨p, ic⟩ := st
  cases p with
  | pending => exact absurd rfl h
  | resolved => cases e <;> cases ic <;> rfl
  | rejected => cases e <;> cases ic <;> rfl

theorem foldl_promise_stable (evts : List SessEvt) : ∀ (st : ConnectPromiseState),
    st.promise ≠ PromiseState.pending →
    (evts.foldl connectHandle st).promise = st.promise := by
  induction evts with
  | nil =>
    intro st h
    rfl
  | cons e rest ih =>
    intro st h
    rw [List.foldl_cons]
    rw [ih (connectHandle st e) (by rw [connectHandle_promise_stable st e h]; exact h)]
    exact connectHandle_promise_stable st e h

/-- Counterexample to C6: when an earlier connect on the same instance already
succeeded (`initialConnected = true`), a later `connect()` call whose session
signals an error before ever reaching ready does not reject — the `error`
handler's `if (!this.initialConnected)` guard skips it, leaving the promise
pending, where the claim requires rejection. -/
theorem connect_error_after_prior_success_counterexample :
    (connectRun true [SessEvt.error]).promise = PromiseState.pending ∧
    PromiseState.pending ≠ PromiseState.rejected := ⟨rfl, by decide⟩

/-- C6 (amended): the promise of a `connect()` call resolves exactly when the
session signals ready (a `connect` event) and no rejection precedes it, and
it rejects exactly when an `error` event precedes any `connect` event while
no connect on this instance has ever succeeded (`initialConnected` still
false at the call) — not, as claimed, whenever an error precedes this
particular call's ready signal. -/
theorem connect_promise_characterization (ic : Bool) (evts : List SessEvt) :
    ((connectRun ic evts).promise = PromiseState.rejected ↔
      ic = false ∧ errorBeforeConnect evts = true) ∧
    ((connectRun ic evts).promise = PromiseState.resolved ↔
      hasConnectEvt evts = true ∧ ¬(ic = false ∧ errorBeforeConnect evts = true)) := by
  induction evts generalizing ic with
  | nil => cases ic <;> exact ⟨by decide, by decide⟩
  | cons e rest ih =>
    cases e with
    | connect =>
      have hstep : connectHandle { promise := PromiseState.pending, initialConnected := ic }
          SessEvt.connect
          = { promise := PromiseState.resolved, initialConnected := true } := rfl
      have hp : (connectRun ic (SessEvt.connect :: rest)).promise = PromiseState.resolved := by
        show (List.foldl connectHandle (connectHandle
          { promise := PromiseState.pending, initialConnected := ic } SessEvt.connect)
          rest).promise = _
        rw [hstep]
        exact foldl_promise_stable rest _ (by intro hc; cases hc)
      constructor
      · rw [hp]
        constructor
        · intro hc
          cases hc
        · rintro ⟨h1, h2⟩
          rw [show errorBeforeConnect (SessEvt.connect :: rest) = false from rfl] at h2
          cases h2
      · rw [hp]
        constructor
        · intro _
          refine ⟨rfl, ?_⟩
          rintro ⟨h1, h2⟩
          rw [show errorBeforeConnect (SessEvt.connect :: rest) = false from rfl] at h2
          cases h2
        · intro _
          rfl
    | error =>
      cases ic with
      | false =>
        have hstep : connectHandle { promise := PromiseState.pending, initialConnected := false }
            SessEvt.error
            = { promise := PromiseState.rejected, initialConnected := false } := rfl
        have hp : (connectRun false (SessEvt.error :: rest)).promise
            = PromiseState.rejected := by
          show (List.foldl connectHandle (connectHandle
            { promise := PromiseState.pending, initialConnected := false } SessEvt.error)
            rest).promise = _
          rw [hstep]
          exact foldl_promise_stable rest _ (by intro hc; cases hc)
        constructor
        · rw [hp]
          exact ⟨fun _ => ⟨rfl, rfl⟩, fun _ => rfl⟩
        · rw [hp]
          constructor
          · intro hc
            cases hc
          · rintro ⟨h1, h2⟩
            exact absurd ⟨rfl, rfl⟩ h2
      | true =>
        have hs : connectRun true (SessEvt.error :: rest) = connectRun true rest := rfl
        constructor
        · rw [hs, (ih true).1]
          constructor
          · rintro ⟨h1, h2⟩
            cases h1
          · rintro ⟨h1, h2⟩
            cases h1
        · rw [hs, (ih true).2]
          constructor
          · rintro ⟨h1, h2⟩
            refine ⟨h1, ?_⟩
            rintro ⟨hc, _⟩
            cases hc
          · rintro ⟨h1, h2⟩
            refine ⟨h1, ?_⟩
            rintro ⟨hc, _⟩
            cases hc
    | reconnecting => exact ih ic
    | reconnect => exact ih ic
    | disconnect => exact ih ic
    | close => exact ih ic
    | permissionError => exact ih ic

end NatsBuffered
